import Mathlib

/-!
Verification development for the `raug-macros` repository: a shallow embedding of
the two processor code-emission strategies (the field-based `#[derive(Processor)]`
macro in `src/src/lib.rs` and the function-based `#[processor]` attribute macro in
`src/src/processor_attribute.rs`), of their parameter-role validation and
type-to-signal-kind mapping, and of the zipped typed-iteration combinator
`iter_proc_io_as!`. Definitions mirror the source; external collaborators (the
`raug` engine's accessors, `convert_case`) are modelled from the specification
where noted.
-/

namespace RaugMacros

/-! ## Signal kinds and the type-to-signal-kind mapping -/

/-- The closed signal-kind enumeration `raug::signal::SignalType` as referenced by
the emitted code (`Bool`, `Float`, `Int`, `Midi`). -/
inductive SignalType
  | bool
  | float
  | int
  | midi
  deriving DecidableEq, Repr

/-- The type-to-signal-kind lookup of the derive macro (src/src/lib.rs lines
192-199 and 212-219, two identical tables): keyed on the last path segment
identifier of the declared Rust type; an unsupported identifier hits the
wildcard `panic!` arm, modelled as `none`. -/
def mapSignalType : String → Option SignalType
  | "bool" => some .bool
  | "f32" => some .float
  | "f64" => some .float
  | "Float" => some .float
  | "i64" => some .int
  | "MidiMessage" => some .midi
  | _ => none

/-- The identifiers the lookup table of src/src/lib.rs supports. -/
def supportedTypeIdents : List String :=
  ["bool", "f32", "f64", "Float", "i64", "MidiMessage"]

/-- Modelled from the spec: `<T as raug::signal::Signal>::signal_type()`, the
signal kind the external `raug` engine's `Signal` trait assigns to a supported
value type, used by the attribute macro's spec emission
(src/src/processor_attribute.rs lines 318 and 340). The spec (sections 4.2 and 3)
fixes the same closed table as the derive macro's lookup; a type with no
`Signal` implementation cannot compile, modelled as `none`. -/
def raugSignalType : String → Option SignalType
  | "bool" => some .bool
  | "f32" => some .float
  | "f64" => some .float
  | "Float" => some .float
  | "i64" => some .int
  | "MidiMessage" => some .midi
  | _ => none

theorem raugSignalType_eq_mapSignalType (s : String) :
    raugSignalType s = mapSignalType s := by
  unfold raugSignalType mapSignalType
  split <;> rfl

/-! ## Pascal-case unit naming (attribute macro) -/

/-- First character uppercased, rest lowercased: one word of a case conversion. -/
def capitalizeChars : List Char → List Char
  | [] => []
  | c :: cs => c.toUpper :: cs.map Char.toLower

/-- Split a character list at underscores (word boundaries of a snake_case
identifier); `acc` holds the reversed current word. -/
def splitUnderscoreAux : List Char → List Char → List (List Char)
  | [], acc => [acc.reverse]
  | c :: cs, acc =>
    if c = '_' then acc.reverse :: splitUnderscoreAux cs []
    else splitUnderscoreAux cs (c :: acc)

/-- Modelled from the spec: `Case::Pascal` conversion from the external
`convert_case` crate as applied to a snake_case function identifier
(src/src/processor_attribute.rs line 84): split on underscores and capitalize
each word. -/
def toPascalCase (s : String) : String :=
  String.mk (((splitUnderscoreAux s.toList []).map capitalizeChars).flatten)

/-- The emitted unit type's identifier (src/src/processor_attribute.rs lines
83-85): the Pascal-case conversion of the function's identifier. -/
def emittedStructName (funcName : String) : String :=
  toPascalCase funcName

/-- The string returned by the emitted `name()` method
(src/src/processor_attribute.rs lines 444-446): `stringify!(#struct_name)`,
i.e. exactly the emitted struct identifier. -/
def emittedNameMethod (funcName : String) : String :=
  emittedStructName funcName

/-- C5: the type-to-signal-kind mapping applied to each Input and Output
parameter is a fixed deterministic lookup: boolean maps to Bool, both 32-bit
and 64-bit floating types (and the engine's `Float` alias) map to Float, a
64-bit integer maps to Int, the domain MIDI event type maps to Midi; every
identifier outside the supported set is a terminal error (`none`, the `panic!`
arm), never a default kind. -/
theorem c5_signal_type_mapping (s : String) (h : s ∉ supportedTypeIdents) :
    mapSignalType "bool" = some SignalType.bool ∧
    mapSignalType "f32" = some SignalType.float ∧
    mapSignalType "f64" = some SignalType.float ∧
    mapSignalType "Float" = some SignalType.float ∧
    mapSignalType "i64" = some SignalType.int ∧
    mapSignalType "MidiMessage" = some SignalType.midi ∧
    mapSignalType s = none := by
  refine ⟨rfl, rfl, rfl, rfl, rfl, rfl, ?_⟩
  simp only [supportedTypeIdents, List.mem_cons, List.not_mem_nil, or_false] at h
  push_neg at h
  obtain ⟨h1, h2, h3, h4, h5, h6⟩ := h
  unfold mapSignalType
  split <;> simp_all

theorem c5_signal_type_mapping_witness :
    mapSignalType "String" = none :=
  (c5_signal_type_mapping "String" (by decide)).2.2.2.2.2.2

/-- C10: for every function-based definition, the emitted unit type's
identifier is the Pascal-case conversion of the function's identifier, and the
emitted `name()` method returns exactly that identifier; in particular
`add_to_counter` yields `AddToCounter`. -/
theorem c10_pascal_case_name (funcName : String) :
    emittedNameMethod funcName = emittedStructName funcName ∧
    emittedStructName funcName = toPascalCase funcName ∧
    emittedStructName "add_to_counter" = "AddToCounter" ∧
    emittedNameMethod "add_to_counter" = "AddToCounter" := by
  refine ⟨rfl, rfl, ?_, ?_⟩ <;> decide

/-! ## Spec emission (derive macro fields and attribute macro parameters) -/

/-- A named struct field as the derive macro sees it (src/src/lib.rs lines
125-163): its identifier, the last path segment of its declared type, and
whether it carries the `#[input]` respectively `#[output]` attribute. -/
structure FieldDef where
  name : String
  tyIdent : String
  isInput : Bool
  isOutput : Bool
  deriving DecidableEq, Repr

/-- `input_fields` (src/src/lib.rs lines 141-144): the fields carrying
`#[input]`, in declaration order. -/
def inputFields (fields : List FieldDef) : List FieldDef :=
  fields.filter fun f => f.isInput

/-- `output_fields` (src/src/lib.rs lines 146-154): the fields carrying
`#[output]`, in declaration order. -/
def outputFields (fields : List FieldDef) : List FieldDef :=
  fields.filter fun f => f.isOutput

/-- The `input_spec` emitted by the derive macro (src/src/lib.rs lines 236-242):
one `SignalSpec(name, kind)` per `#[input]` field in declaration order; `none`
when some input field's type identifier is unsupported (the `panic!` at line
199, which aborts generation). -/
def deriveInputSpec (fields : List FieldDef) : Option (List (String × SignalType)) :=
  (inputFields fields).mapM fun f => (mapSignalType f.tyIdent).map fun t => (f.name, t)

/-- The `output_spec` emitted by the derive macro (src/src/lib.rs lines
244-250), analogous to `deriveInputSpec`. -/
def deriveOutputSpec (fields : List FieldDef) : Option (List (String × SignalType)) :=
  (outputFields fields).mapM fun f => (mapSignalType f.tyIdent).map fun t => (f.name, t)

/-- The `input_spec` emitted by the attribute macro
(src/src/processor_attribute.rs lines 317-319 and 448-450): one
`SignalSpec(name, signal_type)` per `#[input]` parameter, in declaration order,
over the extracted pointee types; `none` models a parameter type with no
`Signal` implementation (which cannot compile). -/
def attrInputSpec (ins : List (String × String)) : Option (List (String × SignalType)) :=
  ins.mapM fun p => (raugSignalType p.2).map fun t => (p.1, t)

/-- The `output_spec` emitted by the attribute macro
(src/src/processor_attribute.rs lines 339-341 and 452-454). -/
def attrOutputSpec (outs : List (String × String)) : Option (List (String × SignalType)) :=
  outs.mapM fun p => (raugSignalType p.2).map fun t => (p.1, t)

/-- Successful `mapM` of a name/kind pairing preserves names and length. -/
theorem mapM_pair_shape {α γ β : Type} (nm : α → γ) (g : α → Option β) :
    ∀ (l : List α) (r : List (γ × β)),
      (l.mapM fun x => (g x).map fun t => (nm x, t)) = some r →
      r.map Prod.fst = l.map nm ∧ r.length = l.length := by
  intro l
  induction l with
  | nil =>
    intro r hr
    simp only [List.mapM_nil, pure, Option.some.injEq] at hr
    subst hr
    simp
  | cons a l ih =>
    intro r hr
    rw [List.mapM_cons] at hr
    cases hga : g a with
    | none =>
      rw [hga] at hr
      simp [Option.map_none, Option.bind] at hr
    | some t =>
      rw [hga] at hr
      cases hml : l.mapM (fun x => (g x).map fun t => (nm x, t)) with
      | none =>
        rw [hml] at hr
        simp [Option.bind] at hr
      | some bs =>
        rw [hml] at hr
        simp only [Option.map_some'] at hr
        injection hr with hr
        subst hr
        obtain ⟨ihm, ihl⟩ := ih bs hml
        simp [ihm, ihl]

/-- Successful `mapM` of a name/kind pairing contains the pair of every
list member whose kind lookup succeeds. -/
theorem mapM_pair_mem {α γ β : Type} (nm : α → γ) (g : α → Option β) :
    ∀ (l : List α) (r : List (γ × β)),
      (l.mapM fun x => (g x).map fun t => (nm x, t)) = some r →
      ∀ x ∈ l, ∀ t, g x = some t → (nm x, t) ∈ r := by
  intro l
  induction l with
  | nil => intro r _ x hx; exact absurd hx (List.not_mem_nil x)
  | cons a l ih =>
    intro r hr x hx t ht
    rw [List.mapM_cons] at hr
    cases hga : g a with
    | none =>
      rw [hga] at hr
      simp [Option.bind] at hr
    | some ta =>
      rw [hga] at hr
      cases hml : l.mapM (fun x => (g x).map fun t => (nm x, t)) with
      | none =>
        rw [hml] at hr
        simp [Option.bind] at hr
      | some bs =>
        rw [hml] at hr
        simp only [Option.map_some'] at hr
        injection hr with hr
        subst hr
        rcases List.mem_cons.mp hx with hxa | hxl
        · subst hxa
          rw [hga] at ht
          injection ht with ht
          subst ht
          exact List.mem_cons_self _ _
        · exact List.mem_cons_of_mem _ (ih bs hml x hxl t ht)

/-- C6: for every accepted definition, under either variant, the emitted
`input_spec` has exactly one entry per declared Input parameter and
`output_spec` one per declared Output parameter, and the i-th entry's name is
the i-th parameter's name in declaration order. -/
theorem c6_spec_counts_and_order
    (fields : List FieldDef) (ins outs : List (String × String))
    (ispec ospec aspec bspec : List (String × SignalType))
    (h1 : deriveInputSpec fields = some ispec)
    (h2 : deriveOutputSpec fields = some ospec)
    (h3 : attrInputSpec ins = some aspec)
    (h4 : attrOutputSpec outs = some bspec) :
    ispec.length = (inputFields fields).length ∧
    ispec.map Prod.fst = (inputFields fields).map FieldDef.name ∧
    ospec.length = (outputFields fields).length ∧
    ospec.map Prod.fst = (outputFields fields).map FieldDef.name ∧
    aspec.length = ins.length ∧
    aspec.map Prod.fst = ins.map Prod.fst ∧
    bspec.length = outs.length ∧
    bspec.map Prod.fst = outs.map Prod.fst := by
  obtain ⟨m1, l1⟩ := mapM_pair_shape _ _ _ _ h1
  obtain ⟨m2, l2⟩ := mapM_pair_shape _ _ _ _ h2
  obtain ⟨m3, l3⟩ := mapM_pair_shape _ _ _ _ h3
  obtain ⟨m4, l4⟩ := mapM_pair_shape _ _ _ _ h4
  exact ⟨l1, m1, l2, m2, l3, m3, l4, m4⟩

theorem c6_spec_counts_and_order_witness :
    ([(("a" : String), SignalType.int)]).length
        = (inputFields [⟨"a", "i64", true, false⟩, ⟨"out", "f32", false, true⟩]).length ∧
    ([(("a" : String), SignalType.int)]).map Prod.fst
        = (inputFields [⟨"a", "i64", true, false⟩, ⟨"out", "f32", false, true⟩]).map FieldDef.name ∧
    ([(("out" : String), SignalType.float)]).length
        = (outputFields [⟨"a", "i64", true, false⟩, ⟨"out", "f32", false, true⟩]).length ∧
    ([(("out" : String), SignalType.float)]).map Prod.fst
        = (outputFields [⟨"a", "i64", true, false⟩, ⟨"out", "f32", false, true⟩]).map FieldDef.name ∧
    ([(("a" : String), SignalType.int)]).length = [(("a" : String), ("i64" : String))].length ∧
    ([(("a" : String), SignalType.int)]).map Prod.fst
        = [(("a" : String), ("i64" : String))].map Prod.fst ∧
    ([(("out" : String), SignalType.float)]).length
        = [(("out" : String), ("f32" : String))].length ∧
    ([(("out" : String), SignalType.float)]).map Prod.fst
        = [(("out" : String), ("f32" : String))].map Prod.fst :=
  c6_spec_counts_and_order
    [⟨"a", "i64", true, false⟩, ⟨"out", "f32", false, true⟩]
    [("a", "i64")] [("out", "f32")]
    [("a", SignalType.int)] [("out", SignalType.float)]
    [("a", SignalType.int)] [("out", SignalType.float)]
    (by decide) (by decide) (by decide) (by decide)

/-- C9: in the derive variant, role tags are not mutually exclusive and
untagged fields are not rejected: a field carrying both `#[input]` and
`#[output]` is in both filtered field lists and its name/kind pair appears in
both emitted specs, while a field carrying neither attribute is in neither
list, and appending it to the definition changes neither spec and raises no
error. -/
theorem c9_dual_role_and_untagged_fields
    (fields : List FieldDef) (f g : FieldDef) (t : SignalType)
    (hf : f ∈ fields) (hfi : f.isInput = true) (hfo : f.isOutput = true)
    (ht : mapSignalType f.tyIdent = some t)
    (ispec ospec : List (String × SignalType))
    (h1 : deriveInputSpec fields = some ispec)
    (h2 : deriveOutputSpec fields = some ospec)
    (hgi : g.isInput = false) (hgo : g.isOutput = false) :
    f ∈ inputFields fields ∧ f ∈ outputFields fields ∧
    (f.name, t) ∈ ispec ∧ (f.name, t) ∈ ospec ∧
    g ∉ inputFields (fields ++ [g]) ∧ g ∉ outputFields (fields ++ [g]) ∧
    deriveInputSpec (fields ++ [g]) = some ispec ∧
    deriveOutputSpec (fields ++ [g]) = some ospec := by
  have hfin : f ∈ inputFields fields := List.mem_filter.mpr ⟨hf, hfi⟩
  have hfout : f ∈ outputFields fields := List.mem_filter.mpr ⟨hf, hfo⟩
  have hginputs : inputFields (fields ++ [g]) = inputFields fields := by
    simp [inputFields, List.filter_append, hgi]
  have hgoutputs : outputFields (fields ++ [g]) = outputFields fields := by
    simp [outputFields, List.filter_append, hgo]
  refine ⟨hfin, hfout, ?_, ?_, ?_, ?_, ?_, ?_⟩
  · exact mapM_pair_mem _ _ _ _ h1 f hfin t ht
  · exact mapM_pair_mem _ _ _ _ h2 f hfout t ht
  · intro hmem
    have := (List.mem_filter.mp hmem).2
    rw [hgi] at this
    exact Bool.false_ne_true this
  · intro hmem
    have := (List.mem_filter.mp hmem).2
    rw [hgo] at this
    exact Bool.false_ne_true this
  · rw [deriveInputSpec, hginputs]; exact h1
  · rw [deriveOutputSpec, hgoutputs]; exact h2

theorem c9_dual_role_and_untagged_fields_witness :
    (⟨"x", "f64", true, true⟩ : FieldDef) ∈ inputFields [⟨"x", "f64", true, true⟩] ∧
    (⟨"x", "f64", true, true⟩ : FieldDef) ∈ outputFields [⟨"x", "f64", true, true⟩] ∧
    (("x", SignalType.float) : String × SignalType) ∈ [(("x" : String), SignalType.float)] ∧
    (("x", SignalType.float) : String × SignalType) ∈ [(("x" : String), SignalType.float)] ∧
    (⟨"u", "String", false, false⟩ : FieldDef)
        ∉ inputFields ([⟨"x", "f64", true, true⟩] ++ [⟨"u", "String", false, false⟩]) ∧
    (⟨"u", "String", false, false⟩ : FieldDef)
        ∉ outputFields ([⟨"x", "f64", true, true⟩] ++ [⟨"u", "String", false, false⟩]) ∧
    deriveInputSpec ([⟨"x", "f64", true, true⟩] ++ [⟨"u", "String", false, false⟩])
        = some [("x", SignalType.float)] ∧
    deriveOutputSpec ([⟨"x", "f64", true, true⟩] ++ [⟨"u", "String", false, false⟩])
        = some [("x", SignalType.float)] :=
  c9_dual_role_and_untagged_fields
    [⟨"x", "f64", true, true⟩] ⟨"x", "f64", true, true⟩ ⟨"u", "String", false, false⟩
    SignalType.float (by decide) rfl rfl (by decide)
    [("x", SignalType.float)] [("x", SignalType.float)]
    (by decide) (by decide) rfl rfl

/-! ## Runtime semantics of the emitted `process` methods

The value type `V` stands for the Rust value type of the channels (the model is
generic, as the emitted code is generic in the user's types); `S` for the
processor's state fields taken together; `E` for `ProcessorError`; `Env` for
`ProcEnv`. An input channel view (the result of `inputs.input_as::<T>(idx)`,
obtained once before the loop in both variants) is `none` when the channel is
disconnected or its runtime kind mismatches. In the derive variant per-index
access `inp[__i]` yields an `Option` (src/src/lib.rs line 259); in the
attribute variant it yields the element directly
(src/src/processor_attribute.rs line 324), modelled by `getD` with the held
value as the (unreachable in-bounds) default. -/

/-- Decidable equality for `Except`, needed to evaluate process results on
concrete inputs. -/
instance {ε α : Type} [DecidableEq ε] [DecidableEq α] : DecidableEq (Except ε α)
  | .error e, .error f =>
    if h : e = f then .isTrue (congrArg Except.error h)
    else .isFalse fun hc => h (by injection hc)
  | .error _, .ok _ => .isFalse fun hc => Except.noConfusion hc
  | .ok _, .error _ => .isFalse fun hc => Except.noConfusion hc
  | .ok a, .ok b =>
    if h : a = b then .isTrue (congrArg Except.ok h)
    else .isFalse fun hc => h (by injection hc)

/-- The struct emitted by the derive macro, as `process` sees it
(src/src/lib.rs): the non-channel state fields (`state`), the latched
`#[input]` fields in declaration order (`held`), and the `#[output]` fields in
declaration order (`outs`). -/
structure DeriveSelf (S V : Type) where
  state : S
  held : List V
  outs : List V
  deriving DecidableEq, Repr

/-- The struct emitted by the attribute macro, as `process` sees it
(src/src/processor_attribute.rs): the `#[state]` fields (`state`) and the
latched `#[input]` fields in declaration order (`held`). -/
structure AttrSelf (S V : Type) where
  state : S
  held : List V
  deriving DecidableEq, Repr

/-- Derive-variant latching for sample index `i` (src/src/lib.rs line 259):
`self.f = f_view.and_then(|inp| inp[__i]).unwrap_or(self.f)` for each input
field in declaration order. -/
def deriveLatch {V : Type} (held : List V)
    (chans : List (Option (List (Option V)))) (i : Nat) : List V :=
  List.zipWith (fun h ch => ((ch.bind fun c => c.getD i none).getD h)) held chans

/-- The value the derive-variant loop reads for input channel `j` at sample
index `i`: `input_as(j).and_then(|inp| inp[i])`. -/
def chanValueAt {V : Type} (chans : List (Option (List (Option V)))) (j i : Nat) :
    Option V :=
  (chans.getD j none).bind fun c => c.getD i none

/-- One iteration of the derive-variant loop body (src/src/lib.rs lines
257-265) for index `i`: latch the input fields, then `self.update(&inputs.env)`
(whose result, including the output fields the user sets, replaces `self`;
the loop then writes `self.out` fields to the buffers at index `i`). -/
def deriveStep {S V Env : Type} (update : Env → DeriveSelf S V → DeriveSelf S V)
    (env : Env) (chans : List (Option (List (Option V)))) (i : Nat)
    (a : DeriveSelf S V) : DeriveSelf S V :=
  update env { a with held := deriveLatch a.held chans i }

/-- The derive-variant struct after the loop has processed sample indices
`0, …, k-1`. -/
def deriveSelfAfter {S V Env : Type} (update : Env → DeriveSelf S V → DeriveSelf S V)
    (env : Env) (chans : List (Option (List (Option V)))) (a0 : DeriveSelf S V) :
    Nat → DeriveSelf S V
  | 0 => a0
  | i + 1 => deriveStep update env chans i (deriveSelfAfter update env chans a0 i)

/-- The per-index values the derive-variant `process` writes to the output
buffers (src/src/lib.rs lines 262-264): entry `i` holds the output-field
values passed to `set_output_as(j, i, ·)` after the transform ran for index
`i`. The engine's output buffers are created well-typed
(`create_output_buffers`), so the writes succeed. -/
def deriveFrames {S V Env : Type} (update : Env → DeriveSelf S V → DeriveSelf S V)
    (env : Env) (chans : List (Option (List (Option V)))) (a0 : DeriveSelf S V)
    (block : Nat) : List (List V) :=
  (List.range block).map fun i => (deriveSelfAfter update env chans a0 (i + 1)).outs

/-- Attribute-variant latching for sample index `i`
(src/src/processor_attribute.rs lines 323-327):
`if let Some(v) = view.map(|inp| &inp[__i]) { self.f.clone_from(v) }` for each
input parameter in declaration order; indexing a connected channel is always
in bounds in an engine call, modelled with the held value as default. -/
def attrLatch {V : Type} (held : List V) (chans : List (Option (List V)))
    (i : Nat) : List V :=
  List.zipWith (fun h ch => match ch with | some c => c.getD i h | none => h) held chans

/-- One iteration of the attribute-variant loop for index `i`
(src/src/processor_attribute.rs lines 468-472): latch the input fields, then
`Self::process_sample(inputs.env, &mut state…, &inputs…, outputs…)?`; on
success the new state and the values written through the output views at index
`i` are returned. -/
def attrStepRes {S V E Env : Type} (tf : Env → S → List V → Except E (S × List V))
    (env : Env) (chans : List (Option (List V))) (i : Nat) (a : AttrSelf S V) :
    Except E (AttrSelf S V × List V) :=
  let held2 := attrLatch a.held chans i
  (tf env a.state held2).map fun p => (⟨p.1, held2⟩, p.2)

/-- The attribute-variant `process` loop (src/src/processor_attribute.rs lines
468-473) over the listed sample indices: returns the loop's result (final
struct and the per-index output frames, or the first transform error
propagated by `?`) together with the number of `process_sample` invocations
performed. -/
def attrLoop {S V E Env : Type} (tf : Env → S → List V → Except E (S × List V))
    (env : Env) (chans : List (Option (List V))) :
    AttrSelf S V → List Nat → Except E (AttrSelf S V × List (List V)) × Nat
  | a, [] => (Except.ok (a, []), 0)
  | a, i :: rest =>
    match attrStepRes tf env chans i a with
    | Except.error e => (Except.error e, 1)
    | Except.ok (a2, frame) =>
      match attrLoop tf env chans a2 rest with
      | (Except.error e, k) => (Except.error e, k + 1)
      | (Except.ok (b, frames), k) => (Except.ok (b, frame :: frames), k + 1)

/-- The attribute-variant `process` (src/src/processor_attribute.rs lines
464-475): the loop over `0..inputs.block_size()`. -/
def attrProcess {S V E Env : Type} (tf : Env → S → List V → Except E (S × List V))
    (env : Env) (chans : List (Option (List V))) (a : AttrSelf S V) (block : Nat) :
    Except E (AttrSelf S V × List (List V)) × Nat :=
  attrLoop tf env chans a (List.range block)

/-- Output buffer `j` reconstructed from the per-index frames: the value
written at index `i` is frame `i`'s entry `j`. -/
def outBuffer {V : Type} (frames : List (List V)) (j : Nat) (d : V) : List V :=
  frames.map fun fr => fr.getD j d

/-- A derive-variant input block with every per-index value present, carrying
the same values as an attribute-variant input block: the meaning of running
identical input blocks through both variants. -/
def denseChans {V : Type} (chans : List (Option (List V))) :
    List (Option (List (Option V))) :=
  chans.map (Option.map (List.map some))

/-- The derive-variant `update` induced by a per-sample transform that reads
the state and latched input fields and writes the state and output fields:
the shape every definition expressible under both emission strategies has. -/
def updateOfTransform {S V Env : Type} (f : Env → S → List V → S × List V) :
    Env → DeriveSelf S V → DeriveSelf S V :=
  fun env a => ⟨(f env a.state a.held).1, a.held, (f env a.state a.held).2⟩

/-- The attribute-variant `process_sample` induced by the same (infallible)
per-sample transform. -/
def okTransform {S V E Env : Type} (f : Env → S → List V → S × List V) :
    Env → S → List V → Except E (S × List V) :=
  fun env s ins => Except.ok (f env s ins)

/-- The derive-macro field list representing the same Input/Output parameters
as an attribute-macro definition: one `#[input]` field per Input parameter and
one `#[output]` field per Output parameter, in declaration order. -/
def fieldsOfParams (ins outs : List (String × String)) : List FieldDef :=
  (ins.map fun p => ⟨p.1, p.2, true, false⟩) ++ (outs.map fun p => ⟨p.1, p.2, false, true⟩)

/-- C3: the hold law for both variants. Derive variant (first two conjuncts):
for every processed sample index `i`, the transform for `i` is invoked on the
struct whose input fields were just latched (definitional), and for each input
channel `j` a value present at index `i` overwrites the held field while an
absent value leaves the field at its value after the previous processed index
(its initial value when `i = 0`) — never zero; the hypothesis `hpres` states
that the transform writes only state and output fields. Attribute variant
(last three conjuncts): `process_sample` for index `i` is invoked on the
just-latched fields and on success the struct keeps exactly those latched
fields (definitional); a disconnected channel `j` (`input_as` returned `None`,
so no value is present at any index) leaves the held field untouched — never
zeroed — and a connected channel `j` overwrites the field with its value at
index `i`; there the transform cannot touch the held fields at all, since it
receives them by shared reference. -/
theorem c3_input_hold_law {S V E Env : Type}
    (update : Env → DeriveSelf S V → DeriveSelf S V) (env : Env)
    (chans : List (Option (List (Option V)))) (a0 : DeriveSelf S V)
    (tf : Env → S → List V → Except E (S × List V))
    (attrChans : List (Option (List V))) (a : AttrSelf S V) (c : List V)
    (hlen : a0.held.length = chans.length)
    (hpres : ∀ (e : Env) (b : DeriveSelf S V), (update e b).held = b.held)
    (i j : Nat) (hj : j < chans.length) :
    deriveSelfAfter update env chans a0 (i + 1)
      = update env { deriveSelfAfter update env chans a0 i with
          held := deriveLatch (deriveSelfAfter update env chans a0 i).held chans i } ∧
    (deriveSelfAfter update env chans a0 (i + 1)).held[j]?
      = (match chanValueAt chans j i with
        | some v => some v
        | none => (deriveSelfAfter update env chans a0 i).held[j]?) ∧
    attrStepRes tf env attrChans i a
      = (tf env a.state (attrLatch a.held attrChans i)).map
          (fun p => (⟨p.1, attrLatch a.held attrChans i⟩, p.2)) ∧
    (a.held.length = attrChans.length → j < attrChans.length →
      attrChans.getD j none = none →
      (attrLatch a.held attrChans i)[j]? = a.held[j]?) ∧
    (a.held.length = attrChans.length → j < attrChans.length →
      attrChans.getD j none = some c → i < c.length →
      (attrLatch a.held attrChans i)[j]? = getElem? c i) := by
  have hli : ∀ k, (deriveSelfAfter update env chans a0 k).held.length = chans.length := by
    intro k
    induction k with
    | zero => exact hlen
    | succ k ih =>
      show (deriveStep update env chans k _).held.length = _
      rw [deriveStep, hpres]
      simp [deriveLatch, List.length_zipWith, ih]
  refine ⟨rfl, ?_, rfl, ?_, ?_⟩
  · have hstep : (deriveSelfAfter update env chans a0 (i + 1)).held
        = deriveLatch (deriveSelfAfter update env chans a0 i).held chans i := by
      show (deriveStep update env chans i _).held = _
      rw [deriveStep, hpres]
    have hjp : j < (deriveSelfAfter update env chans a0 i).held.length := by
      rw [hli]; exact hj
    have hgd : chans.getD j none = chans[j] := by
      rw [List.getD_eq_getElem?_getD, List.getElem?_eq_getElem hj]; rfl
    rw [hstep, deriveLatch, List.getElem?_zipWith',
      List.getElem?_eq_getElem hjp, List.getElem?_eq_getElem hj, chanValueAt, hgd]
    cases hx : ((chans[j]).bind fun c => c.getD i none) with
    | some v =>
      simp only [List.getD_eq_getElem?_getD] at hx
      simp [hx]
    | none =>
      simp only [List.getD_eq_getElem?_getD] at hx
      simp [hx, List.getElem?_eq_getElem hjp]
  · intro hlen2 hj2 hnone
    have hjh : j < a.held.length := by rw [hlen2]; exact hj2
    have hgd2 : attrChans.getD j none = attrChans[j] := by
      rw [List.getD_eq_getElem?_getD, List.getElem?_eq_getElem hj2]; rfl
    rw [hgd2] at hnone
    rw [attrLatch, List.getElem?_zipWith', List.getElem?_eq_getElem hjh,
      List.getElem?_eq_getElem hj2, hnone]
    simp [List.getElem?_eq_getElem hjh]
  · intro hlen2 hj2 hsome hi
    have hjh : j < a.held.length := by rw [hlen2]; exact hj2
    have hgd2 : attrChans.getD j none = attrChans[j] := by
      rw [List.getD_eq_getElem?_getD, List.getElem?_eq_getElem hj2]; rfl
    rw [hgd2] at hsome
    rw [attrLatch, List.getElem?_zipWith', List.getElem?_eq_getElem hjh,
      List.getElem?_eq_getElem hj2, hsome]
    simp [List.getD_eq_getElem?_getD, List.getElem?_eq_getElem hi]

theorem c3_input_hold_law_witness :
    deriveSelfAfter (fun (_ : Unit) (a : DeriveSelf Nat Nat) => a) ()
        [some [none, some 5]] ⟨0, [7], []⟩ (0 + 1)
      = (fun (_ : Unit) (a : DeriveSelf Nat Nat) => a) ()
          { deriveSelfAfter (fun (_ : Unit) (a : DeriveSelf Nat Nat) => a) ()
              [some [none, some 5]] ⟨0, [7], []⟩ 0 with
            held := deriveLatch
              (deriveSelfAfter (fun (_ : Unit) (a : DeriveSelf Nat Nat) => a) ()
                [some [none, some 5]] ⟨0, [7], []⟩ 0).held
              [some [none, some 5]] 0 } ∧
    ((deriveSelfAfter (fun (_ : Unit) (a : DeriveSelf Nat Nat) => a) ()
        [some [none, some 5]] ⟨0, [7], []⟩ (0 + 1)).held[0]?
      = match chanValueAt [some [none, some 5]] 0 0 with
        | some v => some v
        | none => (deriveSelfAfter (fun (_ : Unit) (a : DeriveSelf Nat Nat) => a) ()
            [some [none, some 5]] ⟨0, [7], []⟩ 0).held[0]?) ∧
    attrStepRes
        (fun (_ : Unit) (s : Nat) (ins : List Nat) =>
          (Except.ok (s, ins) : Except Unit (Nat × List Nat)))
        () [none] 0 ⟨0, [9]⟩
      = ((fun (_ : Unit) (s : Nat) (ins : List Nat) =>
            (Except.ok (s, ins) : Except Unit (Nat × List Nat)))
          () 0 (attrLatch [9] [none] 0)).map
          (fun p => (⟨p.1, attrLatch [9] [none] 0⟩, p.2)) ∧
    (attrLatch [9] ([none] : List (Option (List Nat))) 0)[0]? = ([9] : List Nat)[0]? ∧
    (attrLatch [9] [some [4, 6]] 0)[0]? = ([4, 6] : List Nat)[0]? := by
  have h1 := c3_input_hold_law (fun (_ : Unit) (a : DeriveSelf Nat Nat) => a) ()
    [some [none, some 5]] ⟨0, [7], []⟩
    (fun (_ : Unit) (s : Nat) (ins : List Nat) =>
      (Except.ok (s, ins) : Except Unit (Nat × List Nat)))
    [none] ⟨0, [9]⟩ [4, 6] rfl (fun _ _ => rfl) 0 0 (by decide)
  have h2 := c3_input_hold_law (fun (_ : Unit) (a : DeriveSelf Nat Nat) => a) ()
    [some [none, some 5]] ⟨0, [7], []⟩
    (fun (_ : Unit) (s : Nat) (ins : List Nat) =>
      (Except.ok (s, ins) : Except Unit (Nat × List Nat)))
    [some [4, 6]] ⟨0, [9]⟩ [4, 6] rfl (fun _ _ => rfl) 0 0 (by decide)
  exact ⟨h1.1, h1.2.1, h1.2.2.1,
    h1.2.2.2.1 (by decide) (by decide) (by decide),
    h2.2.2.2.2 (by decide) (by decide) (by decide) (by decide)⟩

/-- Unfolding of `attrLoop` at an index where the transform fails. -/
theorem attrLoop_cons_error {S V E Env : Type}
    (tf : Env → S → List V → Except E (S × List V)) (env : Env)
    (chans : List (Option (List V))) (a : AttrSelf S V)
    (i : Nat) (rest : List Nat) (e : E)
    (h : attrStepRes tf env chans i a = Except.error e) :
    attrLoop tf env chans a (i :: rest) = (Except.error e, 1) := by
  simp [attrLoop, h]

/-- Unfolding of `attrLoop` at an index where the transform succeeds. -/
theorem attrLoop_cons_ok {S V E Env : Type}
    (tf : Env → S → List V → Except E (S × List V)) (env : Env)
    (chans : List (Option (List V))) (a a2 : AttrSelf S V)
    (i : Nat) (rest : List Nat) (frame : List V)
    (h : attrStepRes tf env chans i a = Except.ok (a2, frame)) :
    attrLoop tf env chans a (i :: rest)
      = (match attrLoop tf env chans a2 rest with
         | (Except.error e, k) => (Except.error e, k + 1)
         | (Except.ok (b, frames), k) => (Except.ok (b, frame :: frames), k + 1)) := by
  simp [attrLoop, h]

/-- C2: attribute-variant error propagation. If the loop reaches struct `b`
after successfully processing the indices in `pre` (with `k` transform
invocations) and the transform fails with `e` at the next index `i`, then
`process` returns exactly that error, the transform was invoked exactly once
more, and no iteration happens for any of the remaining indices `rest`. In
the derive variant the transform slot (`self.update(&inputs.env)`, src/src/lib.rs
line 261) has no failure channel, so the claim is vacuous there. -/
theorem c2_error_stops_processing {S V E Env : Type}
    (tf : Env → S → List V → Except E (S × List V)) (env : Env)
    (chans : List (Option (List V))) (a : AttrSelf S V)
    (pre : List Nat) (i : Nat) (rest : List Nat)
    (b : AttrSelf S V) (frames : List (List V)) (k : Nat) (e : E)
    (hpre : attrLoop tf env chans a pre = (Except.ok (b, frames), k))
    (hfail : attrStepRes tf env chans i b = Except.error e) :
    attrLoop tf env chans a (pre ++ i :: rest) = (Except.error e, k + 1) := by
  induction pre generalizing a frames k with
  | nil =>
    simp only [attrLoop] at hpre
    injection hpre with h1 h2
    injection h1 with h1
    injection h1 with hab hfr
    subst hab; subst hfr; subst h2
    simp only [List.nil_append, attrLoop, hfail]
  | cons p pre ih =>
    rw [List.cons_append]
    cases hstep : attrStepRes tf env chans p a with
    | error e2 =>
      rw [attrLoop_cons_error _ _ _ _ _ _ _ hstep] at hpre
      exact absurd hpre (by simp)
    | ok pa2 =>
      obtain ⟨a2, frame⟩ := pa2
      rw [attrLoop_cons_ok _ _ _ _ _ _ _ _ hstep] at hpre
      rw [attrLoop_cons_ok _ _ _ _ _ _ _ _ hstep]
      rcases hloop : attrLoop tf env chans a2 pre with ⟨r, k2⟩
      rw [hloop] at hpre
      cases r with
      | error e2 => simp at hpre
      | ok pb =>
        obtain ⟨c, frs⟩ := pb
        have hred : (match ((Except.ok (c, frs) : Except E (AttrSelf S V × List (List V))), k2) with
            | (Except.error e, k) => ((Except.error e : Except E (AttrSelf S V × List (List V))), k + 1)
            | (Except.ok (b, frames), k) => (Except.ok (b, frame :: frames), k + 1))
            = ((Except.ok (c, frame :: frs) : Except E (AttrSelf S V × List (List V))), k2 + 1) := rfl
        rw [hred] at hpre
        injection hpre with h1 h2
        injection h1 with h1
        injection h1 with hcb hfr
        subst hcb; subst hfr; subst h2
        rw [ih a2 frs k2 hloop]

theorem c2_error_stops_processing_witness :
    attrLoop (fun (_ : Unit) (s : Nat) (_ : List Nat) =>
        if s = 0 then (Except.ok (1, [s]) : Except Unit (Nat × List Nat))
        else Except.error ())
      () [some [4, 5, 6]] ⟨0, [0]⟩ ([0] ++ 1 :: [2])
      = (Except.error (), 1 + 1) :=
  c2_error_stops_processing
    (fun _ s _ => if s = 0 then Except.ok (1, [s]) else Except.error ())
    () [some [4, 5, 6]] ⟨0, [0]⟩ [0] 1 [2] ⟨1, [4]⟩ [[0]] 1 ()
    (by decide) (by decide)

/-- The per-sample body of the accumulator test processor
(src/tests/processor_attr.rs lines 4-14): one `#[state] i64` field `counter`,
inputs `a` and `b`, one output `out`; body
`*counter += a + b; *out = *counter; Ok(())`. The two latched input fields
arrive as the list `ins` in declaration order. -/
def add_to_counter (_env : Unit) (counter : Int) (ins : List Int) :
    Except Unit (Int × List Int) :=
  let a := ins.getD 0 0
  let b := ins.getD 1 0
  let counter2 := counter + (a + b)
  Except.ok (counter2, [counter2])

/-- C4: the generated accumulator unit, processing one block of size 3 with
inputs a = [1,2,3] and b = [10,20,30] from initial state 0, succeeds with
per-index frames [[11],[33],[66]] (final state 66, held inputs [3, 30], three
transform invocations) and writes exactly [11, 33, 66] to its single output
buffer. -/
theorem c4_accumulator_block :
    attrProcess add_to_counter () [some [1, 2, 3], some [10, 20, 30]] ⟨0, [0, 0]⟩ 3
      = (Except.ok (⟨66, [3, 30]⟩, [[11], [33], [66]]), 3) ∧
    outBuffer [[11], [33], [66]] 0 0 = [11, 33, 66] := by
  constructor
  · rfl
  · rfl

/-- Pointwise agreement of the two latching forms on a densified channel. -/
theorem latch_point {V : Type} (h : V) (ch : Option (List V)) (i : Nat) :
    (((Option.map (List.map some) ch).bind fun c => c.getD i none).getD h)
      = match ch with | some c => c.getD i h | none => h := by
  cases ch with
  | none => rfl
  | some c =>
    simp only [Option.map_some', Option.some_bind, List.getD_eq_getElem?_getD,
      List.getElem?_map]
    cases hci : getElem? c i with
    | none => simp [hci]
    | some x => simp [hci]

/-- Derive-variant latching over a densified attribute-variant input block
agrees with attribute-variant latching. -/
theorem deriveLatch_denseChans {V : Type} (held : List V)
    (chans : List (Option (List V))) (i : Nat) :
    deriveLatch held (denseChans chans) i = attrLatch held chans i := by
  unfold deriveLatch attrLatch denseChans
  rw [List.zipWith_map_right]
  congr 1
  funext h ch
  exact latch_point h ch i

/-- The attribute-variant loop over sample indices `j, …, j+k-1`, started from
the state and held input fields of the derive-variant struct after `j`
samples, follows exactly the derive variant's trajectory and output frames. -/
theorem attrLoop_eq_derive {S V E Env : Type}
    (f : Env → S → List V → S × List V) (env : Env)
    (chans : List (Option (List V))) (a0 : DeriveSelf S V) :
    ∀ (k j : Nat),
      attrLoop (okTransform (E := E) f) env chans
          ⟨(deriveSelfAfter (updateOfTransform f) env (denseChans chans) a0 j).state,
           (deriveSelfAfter (updateOfTransform f) env (denseChans chans) a0 j).held⟩
          (List.range' j k)
        = (Except.ok
            (⟨(deriveSelfAfter (updateOfTransform f) env (denseChans chans) a0 (j + k)).state,
              (deriveSelfAfter (updateOfTransform f) env (denseChans chans) a0 (j + k)).held⟩,
             (List.range' j k).map fun i =>
               (deriveSelfAfter (updateOfTransform f) env (denseChans chans) a0 (i + 1)).outs),
           k) := by
  intro k
  induction k with
  | zero => intro j; simp [List.range', attrLoop]
  | succ k ih =>
    intro j
    have hL := deriveLatch_denseChans
      (deriveSelfAfter (updateOfTransform f) env (denseChans chans) a0 j).held chans j
    have hstep : attrStepRes (okTransform (E := E) f) env chans j
        ⟨(deriveSelfAfter (updateOfTransform f) env (denseChans chans) a0 j).state,
         (deriveSelfAfter (updateOfTransform f) env (denseChans chans) a0 j).held⟩
        = Except.ok
            (⟨(deriveSelfAfter (updateOfTransform f) env (denseChans chans) a0 (j + 1)).state,
              (deriveSelfAfter (updateOfTransform f) env (denseChans chans) a0 (j + 1)).held⟩,
             (deriveSelfAfter (updateOfTransform f) env (denseChans chans) a0 (j + 1)).outs) := by
      simp only [attrStepRes, okTransform, Except.map, deriveSelfAfter, deriveStep,
        updateOfTransform, hL]
    rw [List.range'_succ, attrLoop_cons_ok _ _ _ _ _ _ _ _ hstep, ih (j + 1)]
    have hjk : j + 1 + k = j + (k + 1) := by omega
    rw [hjk]
    simp [List.map_cons]

/-- `mapM` over a mapped list composes the functions (Option monad). -/
theorem mapM_map_option {α β γ : Type} (h : α → β) (g : β → Option γ) (l : List α) :
    (l.map h).mapM g = l.mapM fun x => g (h x) := by
  induction l with
  | nil => rfl
  | cons a l ih =>
    rw [List.map_cons, List.mapM_cons, List.mapM_cons, ih]

/-- A filter over a mapped list whose predicate is true on every image keeps
every element. -/
theorem filter_map_true {α β : Type} (g : α → β) (pred : β → Bool) (l : List α)
    (h : ∀ x, pred (g x) = true) : (l.map g).filter pred = l.map g := by
  induction l with
  | nil => rfl
  | cons a l ih => simp [List.filter_cons, h, ih]

/-- A filter over a mapped list whose predicate is false on every image drops
every element. -/
theorem filter_map_false {α β : Type} (g : α → β) (pred : β → Bool) (l : List α)
    (h : ∀ x, pred (g x) = false) : (l.map g).filter pred = [] := by
  induction l with
  | nil => rfl
  | cons a l ih => simp [List.filter_cons, h, ih]

/-- C1: for a definition expressible under both emission strategies — an
infallible per-sample transform over state, latched inputs and outputs —
running an identical input block with identical initial state through the
attribute-variant `process` succeeds and produces exactly the derive
variant's output frames (hence byte-identical output buffers) and the same
final state and held input fields; and the two variants emit identical
input and output specs for the same parameter lists. -/
theorem c1_strategy_equivalence {S V E Env : Type}
    (f : Env → S → List V → S × List V) (env : Env)
    (chans : List (Option (List V))) (s0 : S) (held0 outs0 : List V) (block : Nat)
    (ins outs : List (String × String)) :
    attrProcess (okTransform (E := E) f) env chans ⟨s0, held0⟩ block
      = (Except.ok
          (⟨(deriveSelfAfter (updateOfTransform f) env (denseChans chans)
                ⟨s0, held0, outs0⟩ block).state,
            (deriveSelfAfter (updateOfTransform f) env (denseChans chans)
                ⟨s0, held0, outs0⟩ block).held⟩,
           deriveFrames (updateOfTransform f) env (denseChans chans)
             ⟨s0, held0, outs0⟩ block),
         block) ∧
    deriveInputSpec (fieldsOfParams ins outs) = attrInputSpec ins ∧
    deriveOutputSpec (fieldsOfParams ins outs) = attrOutputSpec outs := by
  refine ⟨?_, ?_, ?_⟩
  · rw [attrProcess, deriveFrames, List.range_eq_range']
    have h0 : (⟨s0, held0⟩ : AttrSelf S V)
        = ⟨(deriveSelfAfter (updateOfTransform f) env (denseChans chans)
              ⟨s0, held0, outs0⟩ 0).state,
           (deriveSelfAfter (updateOfTransform f) env (denseChans chans)
              ⟨s0, held0, outs0⟩ 0).held⟩ := rfl
    rw [h0, attrLoop_eq_derive f env chans ⟨s0, held0, outs0⟩ block 0]
    simp
  · have h1 : inputFields (fieldsOfParams ins outs)
        = ins.map fun p => (⟨p.1, p.2, true, false⟩ : FieldDef) := by
      rw [fieldsOfParams, inputFields, List.filter_append,
        filter_map_true _ _ _ (fun x => rfl), filter_map_false _ _ _ (fun x => rfl),
        List.append_nil]
    rw [deriveInputSpec, attrInputSpec, h1, mapM_map_option]
    simp only [raugSignalType_eq_mapSignalType]
  · have h2 : outputFields (fieldsOfParams ins outs)
        = outs.map fun p => (⟨p.1, p.2, false, true⟩ : FieldDef) := by
      rw [fieldsOfParams, outputFields, List.filter_append,
        filter_map_false _ _ _ (fun x => rfl), filter_map_true _ _ _ (fun x => rfl),
        List.nil_append]
    rw [deriveOutputSpec, attrOutputSpec, h2, mapM_map_option]
    simp only [raugSignalType_eq_mapSignalType]

/-! ## Attribute-macro parameter-role validation
(src/src/processor_attribute.rs lines 115-269) -/

/-- The shape of a declared Rust parameter type as the validator inspects it:
a bare path (by its identifier), a reference with mutability, one transparent
group wrapper, or anything else. -/
inductive RustTy
  | path (ident : String)
  | ref (isMut : Bool) (elem : RustTy)
  | group (elem : RustTy)
  | other
  deriving DecidableEq, Repr

/-- A parameter pattern: a plain named identifier or any other pattern. -/
inductive RustPat
  | ident (name : String)
  | other
  deriving DecidableEq, Repr

/-- The first attribute on a parameter (`arg.attrs.first()`), identified via
`attr.path().is_ident(…)`: one of the three recognized role tags or an
unrecognized attribute name. -/
inductive ArgAttrTag
  | state
  | input
  | output
  | unknown (name : String)
  deriving DecidableEq, Repr

/-- A typed function argument as the attribute macro sees it. -/
structure FnArg where
  pat : RustPat
  attrs : List ArgAttrTag
  ty : RustTy
  deriving DecidableEq, Repr

/-- The compile-time diagnostics the validator can emit, one constructor per
`syn::Error` message in src/src/processor_attribute.rs (the message text is in
the source at the cited lines). -/
inductive ArgError
  | duplicateProcEnv
  | stateNotNamed
  | inputNotNamed
  | inputMutable
  | inputNotRefInGroup
  | inputNotRef
  | outputNotNamed
  | outputImmutable
  | outputNotRefInGroup
  | outputNotRef
  | unknownAttribute (name : String)
  | missingAttribute
  deriving DecidableEq, Repr

/-- The classification accumulated over the parameter list: the `ProcEnv`
pattern if seen, and the `state`/`input`/`output` parameters in declaration
order (inputs and outputs with their extracted pointee types). -/
structure ParsedArgs where
  procEnv : Option RustPat
  stateArgs : List (String × RustTy)
  inputArgs : List (String × RustTy)
  outputArgs : List (String × RustTy)
  deriving DecidableEq, Repr

/-- The empty accumulator the argument loop starts from. -/
def ParsedArgs.init : ParsedArgs := ⟨none, [], [], []⟩

/-- Extraction of an Input parameter's value type
(src/src/processor_attribute.rs lines 156-193): a read-only reference,
optionally inside one transparent group, yields its pointee; a mutable
reference or any other shape is a validation error. -/
def extractInputTy : RustTy → Except ArgError RustTy
  | .group (.ref m e) =>
    if m then Except.error .inputMutable else Except.ok e
  | .group _ => Except.error .inputNotRefInGroup
  | .ref m e =>
    if m then Except.error .inputMutable else Except.ok e
  | _ => Except.error .inputNotRef

/-- Extraction of an Output parameter's value type
(src/src/processor_attribute.rs lines 206-243): symmetric to `extractInputTy`
but requiring a mutable reference. -/
def extractOutputTy : RustTy → Except ArgError RustTy
  | .group (.ref m e) =>
    if m then Except.ok e else Except.error .outputImmutable
  | .group _ => Except.error .outputNotRefInGroup
  | .ref m e =>
    if m then Except.ok e else Except.error .outputImmutable
  | _ => Except.error .outputNotRef

/-- Classification of one typed argument (one iteration of the loop at
src/src/processor_attribute.rs lines 115-269): a bare `ProcEnv` path is the
environment parameter (at most one); otherwise the first attribute decides the
role (`state` keeps the declared type, `input`/`output` extract the pointee);
an unrecognized attribute or an argument without attributes is a validation
error. -/
def classifyArg (acc : ParsedArgs) (arg : FnArg) : Except ArgError ParsedArgs :=
  if arg.ty = RustTy.path "ProcEnv" then
    match acc.procEnv with
    | some _ => Except.error .duplicateProcEnv
    | none => Except.ok { acc with procEnv := some arg.pat }
  else
    match arg.attrs.head? with
    | some .state =>
      match arg.pat with
      | .ident n => Except.ok { acc with stateArgs := acc.stateArgs ++ [(n, arg.ty)] }
      | _ => Except.error .stateNotNamed
    | some .input =>
      match arg.pat with
      | .ident n =>
        match extractInputTy arg.ty with
        | Except.ok t => Except.ok { acc with inputArgs := acc.inputArgs ++ [(n, t)] }
        | Except.error e => Except.error e
      | _ => Except.error .inputNotNamed
    | some .output =>
      match arg.pat with
      | .ident n =>
        match extractOutputTy arg.ty with
        | Except.ok t => Except.ok { acc with outputArgs := acc.outputArgs ++ [(n, t)] }
        | Except.error e => Except.error e
      | _ => Except.error .outputNotNamed
    | some (.unknown s) => Except.error (.unknownAttribute s)
    | none => Except.error .missingAttribute

/-- The argument loop (src/src/processor_attribute.rs lines 115-269): the
first validation error aborts the macro with a compile error and no unit is
generated. -/
def classifyArgs (acc : ParsedArgs) : List FnArg → Except ArgError ParsedArgs
  | [] => Except.ok acc
  | a :: rest => (classifyArg acc a).bind fun acc2 => classifyArgs acc2 rest

/-- A declared type shaped as a mutable reference (optionally inside one
transparent group wrapper). -/
def isMutRefShape : RustTy → Bool
  | .ref true _ => true
  | .group (.ref true _) => true
  | _ => false

/-- A declared type shaped as a read-only reference (optionally inside one
transparent group wrapper). -/
def isSharedRefShape : RustTy → Bool
  | .ref false _ => true
  | .group (.ref false _) => true
  | _ => false

theorem classifyArgs_append (acc : ParsedArgs) (l1 l2 : List FnArg) :
    classifyArgs acc (l1 ++ l2)
      = (classifyArgs acc l1).bind fun acc2 => classifyArgs acc2 l2 := by
  induction l1 generalizing acc with
  | nil => rfl
  | cons a l1 ih =>
    rw [List.cons_append]
    show (classifyArg acc a).bind _ = ((classifyArg acc a).bind _).bind _
    cases classifyArg acc a with
    | error e => rfl
    | ok acc2 => exact ih acc2

theorem isMutRefShape_not_path (t : RustTy) (h : isMutRefShape t = true) (s : String) :
    ¬t = RustTy.path s := by
  cases t with
  | path i => simp [isMutRefShape] at h
  | ref m e => intro hc; cases hc
  | group e => intro hc; cases hc
  | other => simp [isMutRefShape] at h

theorem isSharedRefShape_not_path (t : RustTy) (h : isSharedRefShape t = true) (s : String) :
    ¬t = RustTy.path s := by
  cases t with
  | path i => simp [isSharedRefShape] at h
  | ref m e => intro hc; cases hc
  | group e => intro hc; cases hc
  | other => simp [isSharedRefShape] at h

theorem extractInputTy_mutRef (t : RustTy) (h : isMutRefShape t = true) :
    extractInputTy t = Except.error ArgError.inputMutable := by
  cases t with
  | path i => simp [isMutRefShape] at h
  | ref m e =>
    cases m with
    | true => rfl
    | false => simp [isMutRefShape] at h
  | group e =>
    cases e with
    | ref m e2 =>
      cases m with
      | true => rfl
      | false => simp [isMutRefShape] at h
    | path i => simp [isMutRefShape] at h
    | group e2 => simp [isMutRefShape] at h
    | other => simp [isMutRefShape] at h
  | other => simp [isMutRefShape] at h

theorem extractOutputTy_sharedRef (t : RustTy) (h : isSharedRefShape t = true) :
    extractOutputTy t = Except.error ArgError.outputImmutable := by
  cases t with
  | path i => simp [isSharedRefShape] at h
  | ref m e =>
    cases m with
    | false => rfl
    | true => simp [isSharedRefShape] at h
  | group e =>
    cases e with
    | ref m e2 =>
      cases m with
      | false => rfl
      | true => simp [isSharedRefShape] at h
    | path i => simp [isSharedRefShape] at h
    | group e2 => simp [isSharedRefShape] at h
    | other => simp [isSharedRefShape] at h
  | other => simp [isSharedRefShape] at h

/-- C7: attribute-macro validation. Whenever the argument loop reaches (after
a well-formed prefix `pre`) an offending parameter, it aborts with the
corresponding validation error — so no unit is generated — for each of: an
Input parameter declared as a mutable reference, an Output parameter declared
as a read-only reference, a non-environment parameter with an unrecognized
first attribute, and a non-environment parameter with no attribute at all;
and this holds whatever parameters follow. -/
theorem c7_attribute_validation
    (pre post : List FnArg) (acc : ParsedArgs) (n sAttr : String)
    (hpre : classifyArgs ParsedArgs.init pre = Except.ok acc)
    (tIn tOut tyNoAttr tyUnknown : RustTy)
    (hmut : isMutRefShape tIn = true)
    (hshared : isSharedRefShape tOut = true)
    (hno1 : ¬tyNoAttr = RustTy.path "ProcEnv")
    (hno2 : ¬tyUnknown = RustTy.path "ProcEnv") :
    classifyArgs ParsedArgs.init (pre ++ ⟨.ident n, [.input], tIn⟩ :: post)
      = Except.error ArgError.inputMutable ∧
    classifyArgs ParsedArgs.init (pre ++ ⟨.ident n, [.output], tOut⟩ :: post)
      = Except.error ArgError.outputImmutable ∧
    classifyArgs ParsedArgs.init (pre ++ ⟨.ident n, [.unknown sAttr], tyUnknown⟩ :: post)
      = Except.error (ArgError.unknownAttribute sAttr) ∧
    classifyArgs ParsedArgs.init (pre ++ ⟨.ident n, [], tyNoAttr⟩ :: post)
      = Except.error ArgError.missingAttribute := by
  refine ⟨?_, ?_, ?_, ?_⟩ <;>
    rw [classifyArgs_append, hpre] <;>
    show classifyArgs acc (_ :: post) = _
  · have hpath := isMutRefShape_not_path tIn hmut "ProcEnv"
    show (classifyArg acc _).bind _ = _
    rw [show classifyArg acc ⟨.ident n, [.input], tIn⟩
        = Except.error ArgError.inputMutable by
      rw [classifyArg]
      simp only [if_neg hpath, List.head?]
      rw [extractInputTy_mutRef tIn hmut]]
    rfl
  · have hpath := isSharedRefShape_not_path tOut hshared "ProcEnv"
    show (classifyArg acc _).bind _ = _
    rw [show classifyArg acc ⟨.ident n, [.output], tOut⟩
        = Except.error ArgError.outputImmutable by
      rw [classifyArg]
      simp only [if_neg hpath, List.head?]
      rw [extractOutputTy_sharedRef tOut hshared]]
    rfl
  · show (classifyArg acc _).bind _ = _
    rw [show classifyArg acc ⟨.ident n, [.unknown sAttr], tyUnknown⟩
        = Except.error (ArgError.unknownAttribute sAttr) by
      rw [classifyArg]
      simp only [if_neg hno2, List.head?]]
    rfl
  · show (classifyArg acc _).bind _ = _
    rw [show classifyArg acc ⟨.ident n, [], tyNoAttr⟩
        = Except.error ArgError.missingAttribute by
      rw [classifyArg]
      simp only [if_neg hno1, List.head?]]
    rfl

theorem c7_attribute_validation_witness :
    classifyArgs ParsedArgs.init
        ([⟨.ident "counter", [.state], .ref true (.path "i64")⟩]
          ++ ⟨.ident "a", [.input], .ref true (.path "i64")⟩ :: [])
      = Except.error ArgError.inputMutable ∧
    classifyArgs ParsedArgs.init
        ([⟨.ident "counter", [.state], .ref true (.path "i64")⟩]
          ++ ⟨.ident "a", [.output], .ref false (.path "i64")⟩ :: [])
      = Except.error ArgError.outputImmutable ∧
    classifyArgs ParsedArgs.init
        ([⟨.ident "counter", [.state], .ref true (.path "i64")⟩]
          ++ ⟨.ident "a", [.unknown "config"], .path "i64"⟩ :: [])
      = Except.error (ArgError.unknownAttribute "config") ∧
    classifyArgs ParsedArgs.init
        ([⟨.ident "counter", [.state], .ref true (.path "i64")⟩]
          ++ ⟨.ident "a", [], .path "i64"⟩ :: [])
      = Except.error ArgError.missingAttribute :=
  c7_attribute_validation
    [⟨.ident "counter", [.state], .ref true (.path "i64")⟩] []
    ⟨none, [("counter", .ref true (.path "i64"))], [], []⟩ "a" "config"
    (by decide)
    (.ref true (.path "i64")) (.ref false (.path "i64")) (.path "i64") (.path "i64")
    (by decide) (by decide) (by decide) (by decide)

/-! ## The zipped typed-iteration builder `iter_proc_io_as!`
(src/src/lib.rs lines 275-415) -/

/-- A type-erased signal value as stored in an `AnyBuffer`; floating-point
payloads are represented opaquely. -/
inductive Val
  | b (x : Bool)
  | f (x : Int)
  | i (x : Int)
  | m (x : Nat)
  deriving DecidableEq, Repr

/-- The runtime kind of a type-erased value. -/
def Val.kind : Val → SignalType
  | .b _ => .bool
  | .f _ => .float
  | .i _ => .int
  | .m _ => .midi

/-- A type-erased channel buffer: its runtime signal kind and its per-index
elements over one block. -/
structure AnyBuf where
  kind : SignalType
  data : List Val
  deriving DecidableEq, Repr

/-- A channel type annotation in the macro invocation: the literal `Any`
(detected via `path.get_ident() == "Any"`, src/src/lib.rs lines 357-358 and
385-386) or a concrete element type, named here by its signal kind. -/
inductive ChanAnn
  | anyTy
  | typed (t : SignalType)
  deriving DecidableEq, Repr

/-- How the combined iterator stops on bad input: a typed type-mismatch error
result propagated by `?` from a checked accessor, or the `panic!` of the
let-else destructuring when the actual channel count disagrees with the
annotated count (src/src/lib.rs lines 334-336 and 345-347; `forInputs` selects
which of the two messages fired, with the expected and actual counts it
formats). -/
inductive IterErr
  | typeMismatch (expected actual : SignalType)
  | panicCountMismatch (forInputs : Bool) (expected got : Nat)
  deriving DecidableEq, Repr

/-- Modelled from the spec: the checked per-channel accessor
(`iter_input_as::<T>(0)` / `iter_output_mut_as::<T>(0)` of the external raug
engine, spec section 4.4): fails with a type-mismatch error when the channel's
runtime kind disagrees with the annotated element type, otherwise yields the
per-index elements. -/
def iterChanAs (t : SignalType) (buf : AnyBuf) : Except IterErr (List Val) :=
  if buf.kind = t then Except.ok buf.data
  else Except.error (.typeMismatch t buf.kind)

/-- Modelled from the spec: the raw type-erased accessor (`iter_input(0)` /
`iter_output_mut(0)`, spec section 4.4): no type check, the raw per-index
elements. -/
def iterChanAny (buf : AnyBuf) : List Val :=
  buf.data

/-- One chunk of the emitted izip expression (src/src/lib.rs lines 350-406):
an `Any` annotation expands to the raw accessor, a concrete annotation to the
checked accessor followed by `?`. -/
def chunkOf (ann : ChanAnn) (buf : AnyBuf) : Except IterErr (List Val) :=
  match ann with
  | .anyTy => Except.ok (iterChanAny buf)
  | .typed t => iterChanAs t buf

/-- The length of the shortest of the given element sequences. -/
def minLen : List (List Val) → Nat
  | [] => 0
  | [l] => l.length
  | l :: ls => min l.length (minLen ls)

/-- Modelled from the spec: `itertools::izip!` over the per-channel element
sequences: one tuple per sample index, all channels advancing in lockstep,
ending at the shortest sequence (spec section 4.4: finite, bounded by the
block size, forward-only). -/
def izipModel (ls : List (List Val)) : List (List Val) :=
  (List.range (minLen ls)).map fun i => ls.map fun l => l.getD i (Val.i 0)

/-- The expansion of `iter_proc_io_as!` (src/src/lib.rs lines 304-415):
destructure the input slice against the annotated input count and the output
slice against the annotated output count (`panic!` on either mismatch), then
build one accessor chunk per channel in order — inputs first, `?` propagating
the first type mismatch — and zip all chunks in lockstep. -/
def iter_proc_io_as (inAnns outAnns : List ChanAnn) (ins outs : List AnyBuf) :
    Except IterErr (List (List Val)) :=
  if ins.length ≠ inAnns.length then
    Except.error (.panicCountMismatch true inAnns.length ins.length)
  else if outs.length ≠ outAnns.length then
    Except.error (.panicCountMismatch false outAnns.length outs.length)
  else do
    let inChunks ← (inAnns.zip ins).mapM fun p => chunkOf p.1 p.2
    let outChunks ← (outAnns.zip outs).mapM fun p => chunkOf p.1 p.2
    pure (izipModel (inChunks ++ outChunks))

/-- When every chunk of a channel group succeeds, the chunk list is the list
of raw element sequences. -/
theorem mapM_chunk_ok :
    ∀ (anns : List ChanAnn) (bufs : List AnyBuf),
      (∀ p ∈ anns.zip bufs, chunkOf p.1 p.2 = Except.ok p.2.data) →
      anns.length = bufs.length →
      (anns.zip bufs).mapM (fun p => chunkOf p.1 p.2)
        = Except.ok (bufs.map AnyBuf.data) := by
  intro anns
  induction anns with
  | nil =>
    intro bufs h hlen
    cases bufs with
    | nil => rfl
    | cons bf bs => simp at hlen
  | cons a anns ih =>
    intro bufs h hlen
    cases bufs with
    | nil => simp at hlen
    | cons bf bs =>
      rw [List.zip_cons_cons, List.mapM_cons]
      rw [h (a, bf) (by simp [List.zip_cons_cons])]
      rw [ih bs (fun p hp => h p (by simp [List.zip_cons_cons, hp]))
        (by simpa using hlen)]
      rfl

/-- A failing checked chunk after a succeeding prefix makes the whole channel
group fail with that type mismatch. -/
theorem mapM_chunk_mismatch (pre post : List ChanAnn) (ipre ipost : List AnyBuf)
    (bf : AnyBuf) (t : SignalType)
    (hlen : pre.length = ipre.length)
    (hok : ∀ p ∈ pre.zip ipre, chunkOf p.1 p.2 = Except.ok p.2.data)
    (hkind : ¬bf.kind = t) :
    ((pre ++ ChanAnn.typed t :: post).zip (ipre ++ bf :: ipost)).mapM
        (fun p => chunkOf p.1 p.2)
      = Except.error (IterErr.typeMismatch t bf.kind) := by
  rw [List.zip_append hlen, List.mapM_append, mapM_chunk_ok pre ipre hok hlen,
    List.zip_cons_cons, List.mapM_cons]
  rw [show chunkOf (ChanAnn.typed t, bf).1 (ChanAnn.typed t, bf).2
      = Except.error (IterErr.typeMismatch t bf.kind) by
    simp [chunkOf, iterChanAs, hkind]]
  rfl

/-- When all member sequences have length `n` and there is at least one, the
shortest length is `n`. -/
theorem minLen_const :
    ∀ (ls : List (List Val)) (n : Nat), (∀ l ∈ ls, l.length = n) → ls ≠ [] →
      minLen ls = n := by
  intro ls
  induction ls with
  | nil => intro n h hne; exact absurd rfl hne
  | cons l ls ih =>
    intro n h hne
    cases ls with
    | nil => simp [minLen, h l (by simp)]
    | cons l2 ls2 =>
      show min l.length (minLen (l2 :: ls2)) = n
      rw [h l (by simp), ih n (fun x hx => h x (by simp [hx])) (by simp)]
      exact Nat.min_self n

theorem izipModel_length (ls : List (List Val)) :
    (izipModel ls).length = minLen ls := by
  simp [izipModel]

/-- The tuple of the lockstep sequence at index `i`: the per-channel elements
at index `i`, in channel order. -/
theorem izipModel_getD (ls : List (List Val)) (i : Nat) (hi : i < minLen ls) :
    (izipModel ls).getD i [] = ls.map fun l => l.getD i (Val.i 0) := by
  rw [izipModel, List.getD_eq_getElem?_getD, List.getElem?_map,
    List.getElem?_range hi]
  rfl

/-- C8: the zipped typed-iteration builder. Given N input and M output channel
annotations: (a) with matching channel counts, all checked channels agreeing
in kind and all buffers holding `n`-element blocks, the builder succeeds and
yields one tuple per sample index — all N+M per-channel accessors in lockstep,
exactly `n` tuples, tuple `i` holding every channel's element at index `i`;
(b) a concretely annotated input channel whose runtime kind disagrees stops
the builder with a typed error result (no crash), (b') likewise for an output
channel after all inputs checked; (c) an `Any` annotation performs no type
check and yields the raw type-erased elements whatever the buffer's kind;
(d)/(e) a mismatch between the annotated and actual channel count stops with
the descriptive count-mismatch panic rather than undefined behavior. -/
theorem c8_zipped_iteration
    (inAnns outAnns pre post : List ChanAnn) (ins outs ipre ipost : List AnyBuf)
    (bf : AnyBuf) (t : SignalType) (n : Nat) :
    (ins.length = inAnns.length → outs.length = outAnns.length →
      (∀ p ∈ inAnns.zip ins ++ outAnns.zip outs, chunkOf p.1 p.2 = Except.ok p.2.data) →
      (∀ b2 ∈ ins ++ outs, b2.data.length = n) →
      0 < ins.length + outs.length →
      iter_proc_io_as inAnns outAnns ins outs
          = Except.ok (izipModel ((ins ++ outs).map AnyBuf.data)) ∧
        (izipModel ((ins ++ outs).map AnyBuf.data)).length = n ∧
        ∀ i < n, (izipModel ((ins ++ outs).map AnyBuf.data)).getD i []
            = (ins ++ outs).map fun b2 => b2.data.getD i (Val.i 0)) ∧
    ((pre ++ ChanAnn.typed t :: post).length = (ipre ++ bf :: ipost).length →
      outs.length = outAnns.length →
      pre.length = ipre.length →
      (∀ p ∈ pre.zip ipre, chunkOf p.1 p.2 = Except.ok p.2.data) →
      ¬bf.kind = t →
      iter_proc_io_as (pre ++ ChanAnn.typed t :: post) outAnns
          (ipre ++ bf :: ipost) outs
        = Except.error (IterErr.typeMismatch t bf.kind)) ∧
    (ins.length = inAnns.length →
      (∀ p ∈ inAnns.zip ins, chunkOf p.1 p.2 = Except.ok p.2.data) →
      (pre ++ ChanAnn.typed t :: post).length = (ipre ++ bf :: ipost).length →
      pre.length = ipre.length →
      (∀ p ∈ pre.zip ipre, chunkOf p.1 p.2 = Except.ok p.2.data) →
      ¬bf.kind = t →
      iter_proc_io_as inAnns (pre ++ ChanAnn.typed t :: post) ins
          (ipre ++ bf :: ipost)
        = Except.error (IterErr.typeMismatch t bf.kind)) ∧
    (∀ b2 : AnyBuf, chunkOf ChanAnn.anyTy b2 = Except.ok b2.data) ∧
    (ins.length ≠ inAnns.length →
      iter_proc_io_as inAnns outAnns ins outs
        = Except.error (IterErr.panicCountMismatch true inAnns.length ins.length)) ∧
    (ins.length = inAnns.length → outs.length ≠ outAnns.length →
      iter_proc_io_as inAnns outAnns ins outs
        = Except.error (IterErr.panicCountMismatch false outAnns.length outs.length)) := by
  refine ⟨?_, ?_, ?_, fun b2 => rfl, ?_, ?_⟩
  · intro hci hco hok hlen hpos
    have hin := mapM_chunk_ok inAnns ins
      (fun p hp => hok p (List.mem_append_left _ hp)) hci.symm
    have hout := mapM_chunk_ok outAnns outs
      (fun p hp => hok p (List.mem_append_right _ hp)) hco.symm
    have hres : iter_proc_io_as inAnns outAnns ins outs
        = Except.ok (izipModel ((ins ++ outs).map AnyBuf.data)) := by
      rw [iter_proc_io_as, if_neg (not_not_intro hci), if_neg (not_not_intro hco)]
      show ((inAnns.zip ins).mapM fun p => chunkOf p.1 p.2).bind _ = _
      rw [hin]
      show ((outAnns.zip outs).mapM fun p => chunkOf p.1 p.2).bind _ = _
      rw [hout]
      show Except.ok (izipModel (ins.map AnyBuf.data ++ outs.map AnyBuf.data)) = _
      rw [List.map_append]
    have hmem : ∀ l ∈ (ins ++ outs).map AnyBuf.data, l.length = n := by
      intro l hl
      obtain ⟨b2, hb2, rfl⟩ := List.mem_map.mp hl
      exact hlen b2 hb2
    have hnil : (ins ++ outs).map AnyBuf.data ≠ [] := by
      apply List.ne_nil_of_length_pos
      simpa using hpos
    have hmin : minLen ((ins ++ outs).map AnyBuf.data) = n :=
      minLen_const _ n hmem hnil
    refine ⟨hres, ?_, ?_⟩
    · rw [izipModel_length, hmin]
    · intro i hi
      rw [izipModel_getD _ i (by rw [hmin]; exact hi), List.map_map]
      rfl
  · intro h1 h2 h3 h4 h5
    rw [iter_proc_io_as, if_neg (not_not_intro h1.symm), if_neg (not_not_intro h2)]
    rw [mapM_chunk_mismatch pre post ipre ipost bf t h3 h4 h5]
    rfl
  · intro hci hinok h1 h3 h4 h5
    have hin := mapM_chunk_ok inAnns ins hinok hci.symm
    rw [iter_proc_io_as, if_neg (not_not_intro hci), if_neg (not_not_intro h1.symm)]
    show ((inAnns.zip ins).mapM fun p => chunkOf p.1 p.2).bind _ = _
    rw [hin]
    show (((pre ++ ChanAnn.typed t :: post).zip (ipre ++ bf :: ipost)).mapM
        fun p => chunkOf p.1 p.2).bind _ = _
    rw [mapM_chunk_mismatch pre post ipre ipost bf t h3 h4 h5]
    rfl
  · intro hne
    rw [iter_proc_io_as, if_pos hne]
  · intro hci hne
    rw [iter_proc_io_as, if_neg (not_not_intro hci), if_pos hne]

theorem c8_zipped_iteration_witness :
    iter_proc_io_as [ChanAnn.typed SignalType.int, ChanAnn.anyTy]
        [ChanAnn.typed SignalType.float]
        [⟨SignalType.int, [Val.i 1, Val.i 2]⟩, ⟨SignalType.bool, [Val.b true, Val.b false]⟩]
        [⟨SignalType.float, [Val.f 0, Val.f 0]⟩]
      = Except.ok (izipModel
          ((([⟨SignalType.int, [Val.i 1, Val.i 2]⟩,
              ⟨SignalType.bool, [Val.b true, Val.b false]⟩] : List AnyBuf)
            ++ [(⟨SignalType.float, [Val.f 0, Val.f 0]⟩ : AnyBuf)]).map AnyBuf.data)) ∧
    (izipModel
        ((([⟨SignalType.int, [Val.i 1, Val.i 2]⟩,
            ⟨SignalType.bool, [Val.b true, Val.b false]⟩] : List AnyBuf)
          ++ [(⟨SignalType.float, [Val.f 0, Val.f 0]⟩ : AnyBuf)]).map AnyBuf.data)).length
      = 2 ∧
    iter_proc_io_as ([ChanAnn.typed SignalType.int] ++ ChanAnn.typed SignalType.float :: [])
        [ChanAnn.typed SignalType.float]
        ([⟨SignalType.int, [Val.i 1, Val.i 2]⟩] ++ (⟨SignalType.bool, [Val.b true]⟩ : AnyBuf) :: [])
        [⟨SignalType.float, [Val.f 0, Val.f 0]⟩]
      = Except.error (IterErr.typeMismatch SignalType.float SignalType.bool) ∧
    iter_proc_io_as [ChanAnn.typed SignalType.int, ChanAnn.anyTy]
        ([ChanAnn.typed SignalType.int] ++ ChanAnn.typed SignalType.float :: [])
        [⟨SignalType.int, [Val.i 1, Val.i 2]⟩, ⟨SignalType.bool, [Val.b true, Val.b false]⟩]
        ([⟨SignalType.int, [Val.i 1, Val.i 2]⟩] ++ (⟨SignalType.bool, [Val.b true]⟩ : AnyBuf) :: [])
      = Except.error (IterErr.typeMismatch SignalType.float SignalType.bool) ∧
    chunkOf ChanAnn.anyTy ⟨SignalType.float, [Val.b true]⟩
      = Except.ok (AnyBuf.data ⟨SignalType.float, [Val.b true]⟩) ∧
    iter_proc_io_as [ChanAnn.typed SignalType.int, ChanAnn.anyTy]
        [ChanAnn.typed SignalType.float]
        [⟨SignalType.int, [Val.i 1, Val.i 2]⟩]
        [⟨SignalType.float, [Val.f 0, Val.f 0]⟩]
      = Except.error (IterErr.panicCountMismatch true 2 1) ∧
    iter_proc_io_as [ChanAnn.typed SignalType.int, ChanAnn.anyTy]
        [ChanAnn.typed SignalType.float]
        [⟨SignalType.int, [Val.i 1, Val.i 2]⟩, ⟨SignalType.bool, [Val.b true, Val.b false]⟩]
        []
      = Except.error (IterErr.panicCountMismatch false 1 0) := by
  have hmain := c8_zipped_iteration
    [ChanAnn.typed SignalType.int, ChanAnn.anyTy] [ChanAnn.typed SignalType.float]
    [ChanAnn.typed SignalType.int] []
    ([⟨SignalType.int, [Val.i 1, Val.i 2]⟩,
      ⟨SignalType.bool, [Val.b true, Val.b false]⟩] : List AnyBuf)
    ([⟨SignalType.float, [Val.f 0, Val.f 0]⟩] : List AnyBuf)
    ([⟨SignalType.int, [Val.i 1, Val.i 2]⟩] : List AnyBuf) ([] : List AnyBuf)
    (⟨SignalType.bool, [Val.b true]⟩ : AnyBuf) SignalType.float 2
  have hcount := c8_zipped_iteration
    [ChanAnn.typed SignalType.int, ChanAnn.anyTy] [ChanAnn.typed SignalType.float]
    [] [] ([⟨SignalType.int, [Val.i 1, Val.i 2]⟩] : List AnyBuf)
    ([⟨SignalType.float, [Val.f 0, Val.f 0]⟩] : List AnyBuf)
    ([] : List AnyBuf) ([] : List AnyBuf)
    (⟨SignalType.bool, [Val.b true]⟩ : AnyBuf) SignalType.float 2
  have hcount2 := c8_zipped_iteration
    [ChanAnn.typed SignalType.int, ChanAnn.anyTy] [ChanAnn.typed SignalType.float]
    [] []
    ([⟨SignalType.int, [Val.i 1, Val.i 2]⟩,
      ⟨SignalType.bool, [Val.b true, Val.b false]⟩] : List AnyBuf)
    ([] : List AnyBuf) ([] : List AnyBuf) ([] : List AnyBuf)
    (⟨SignalType.bool, [Val.b true]⟩ : AnyBuf) SignalType.float 2
  obtain ⟨ha, hb, hb2, hc, _, _⟩ := hmain
  obtain ⟨ha1, ha2, _⟩ := ha (by decide) (by decide) (by decide) (by decide) (by decide)
  refine ⟨ha1, ha2, ?_, ?_, hc ⟨SignalType.float, [Val.b true]⟩, ?_, ?_⟩
  · exact hb (by decide) (by decide) (by decide) (by decide) (by decide)
  · exact hb2 (by decide) (by decide) (by decide) (by decide) (by decide) (by decide)
  · exact hcount.2.2.2.2.1 (by decide)
  · exact hcount2.2.2.2.2.2 (by decide) (by decide)

end RaugMacros
